import Mathlib

/-!
Verification development for the video-analysis Streamlit script
(`src/video.py`).  The script is a single-page tool: the user supplies a
video (file upload, YouTube link, YouTube playlist, or direct URL), the
script downloads it into a session list `video_paths`, and on demand
uploads each file to a remote inference service, polls each upload until
its status is no longer "PROCESSING", and invokes a multimodal agent.

We embed the script shallowly:
* session state is a record (`SessionState`);
* the filesystem is an oracle (`FS`): an existence predicate and a size map;
* each external call (yt-dlp, HTTP GET, agent run) is an oracle of type
  `Except String _` — `.error e` models the call raising an exception
  with message `e`;
* the remote upload service is an oracle mapping a path to a `Handle`
  with a status stream `statusAt : Nat → String` (`statusAt 0` is the
  state right after `upload_file`, `statusAt (k+1)` the result of the
  k-th `get_file` re-poll);
* the observable behaviour of a branch is a trace of `Effect`s
  (UI messages, `st.video` calls, downloads, uploads, poll sleeps, the
  model call) together with the resulting session state.
The poll loop of the script is unbounded, so it is modelled with fuel:
`none` means the loop did not terminate within the given fuel.
-/

/-- Session state of the script: `st.session_state.video_paths`,
`st.session_state.current_input`, `st.session_state.last_uploaded_name`. -/
structure SessionState where
  video_paths : List String
  current_input : Option String
  last_uploaded_name : Option String
  deriving Repr, DecidableEq

/-- Filesystem oracle: `existsF p` models `Path(p).exists()`,
`sizeF p` models `Path(p).stat().st_size`. -/
structure FS where
  existsF : String → Bool
  sizeF : String → Nat

/-- Observable effects of one interaction (UI messages and external calls). -/
inductive Effect where
  | error (msg : String)
  | warning (msg : String)
  | success (msg : String)
  | showVideo (path : String)
  | download (url : String)
  | upload (path : String)
  | pollSleep
  | modelCall (query : String) (videos : List String)
  | renderResult (content : String)
  deriving Repr, DecidableEq

/-- A post-processor entry of a `ydl_opts` dictionary. -/
structure PostProcessor where
  key : String
  preferedformat : String
  deriving Repr, DecidableEq

/-- The `ydl_opts` dictionary passed to `yt_dlp.YoutubeDL`. -/
structure YdlOpts where
  format : String
  outtmpl : String
  postprocessors : List PostProcessor
  deriving Repr, DecidableEq

/-- `ydl_opts` of the single-YouTube-video branch (src/video.py:107-114). -/
def singleYdlOpts (outPath : String) : YdlOpts :=
  { format := "mp4"
    outtmpl := outPath
    postprocessors := [{ key := "FFmpegVideoConvertor", preferedformat := "mp4" }] }

/-- `ydl_opts` of the playlist branch (src/video.py:146-153). -/
def playlistYdlOpts (outTemplate : String) : YdlOpts :=
  { format := "mp4"
    outtmpl := outTemplate
    postprocessors := [{ key := "FFmpegVideoConvertor", preferedformat := "mp4" }] }

/-- The HTTP request issued by the direct-URL branch. -/
structure HttpRequest where
  url : String
  stream : Bool
  timeout : Option Nat
  deriving Repr, DecidableEq

/-- `requests.get(direct_url, stream=True, timeout=45)` (src/video.py:190). -/
def directRequest (url : String) : HttpRequest :=
  { url := url, stream := true, timeout := some 45 }

/-- `f` matches the pattern of `Path(temp_dir).glob('*.mp4')`: its name
ends in ".mp4". -/
def matchesMp4Glob (f : String) : Bool :=
  (".mp4".toList).isSuffixOf f.toList

/-- `not q.strip()`: `q` is empty or consists only of whitespace. -/
def strippedEmpty (q : String) : Bool :=
  q.toList.all Char.isWhitespace

/-- The filesystem visible after a download attempt: the new filesystem on
success, the old one when the wrapped call raised. -/
def postFS (fs : FS) (dl : Except String FS) : FS :=
  match dl with
  | .ok fs' => fs'
  | .error _ => fs

/-- The "Upload Video" branch (src/video.py:72-88).  `fileName` is
`video_file.name` when a file is selected (`none` models no upload widget
value), `tempName` the name of the fresh `NamedTemporaryFile`.  The display
at the end checks only that `video_paths` is non-empty. -/
def uploadBranch (s : SessionState) (fileName : Option String) (tempName : String) :
    SessionState × List Effect :=
  match fileName with
  | none => (s, [])
  | some name =>
    let (s', effs) :=
      if decide (s.last_uploaded_name ≠ some name) || s.video_paths.isEmpty then
        ({ s with video_paths := [tempName], last_uploaded_name := some name },
         [Effect.success "Video uploaded successfully!"])
      else (s, ([] : List Effect))
    if !s'.video_paths.isEmpty then
      (s', effs ++ [Effect.showVideo (s'.video_paths.headD "")])
    else (s', effs)

/-- The "Provide YouTube Link" branch (src/video.py:90-131).  `vfile` is
`str(Path(temp_dir) / "youtube_video.mp4")`; `dl` is the outcome of
`ydl.extract_info` under the broad `except`: the filesystem after the
download, or the raised exception's message. -/
def youtubeBranch (s : SessionState) (url vfile : String) (fs : FS)
    (dl : Except String FS) : SessionState × List Effect :=
  if url = "" then (s, []) else
  let needDownload :=
    decide (s.current_input ≠ some url) || s.video_paths.isEmpty ||
      !fs.existsF (s.video_paths.headD "")
  let (s', effs, fs') :=
    if needDownload then
      match dl with
      | .error e =>
        ({ s with video_paths := [] },
         [Effect.download url, Effect.error ("Download failed: " ++ e)], fs)
      | .ok fsNew =>
        if fsNew.existsF vfile && decide (10000 < fsNew.sizeF vfile) then
          ({ s with video_paths := [vfile], current_input := some url },
           [Effect.download url, Effect.success "Video downloaded!"], fsNew)
        else
          ({ s with video_paths := [] },
           [Effect.download url, Effect.error "Downloaded file is invalid or empty."],
           fsNew)
    else (s, [], fs)
  if !s'.video_paths.isEmpty && fs'.existsF (s'.video_paths.headD "") then
    (s', effs ++ [Effect.showVideo (s'.video_paths.headD "")])
  else (s', effs)

/-- The "Provide YouTube Playlist Link" branch (src/video.py:133-172).
`dl` is the outcome of `ydl.extract_info`: on success, the listing of the
fresh `temp_dir`, which the script filters with `glob('*.mp4')`.
`playlistCore` is the guarded download/store part (src/video.py:140-167). -/
def playlistCore (s : SessionState) (url : String)
    (dl : Except String (List String)) : SessionState × List Effect :=
  if decide (s.current_input ≠ some url) || s.video_paths.isEmpty then
    match dl with
    | .error e =>
      ({ s with video_paths := [] },
       [Effect.download url, Effect.error ("Playlist download failed: " ++ e)])
    | .ok listing =>
      let files := listing.filter matchesMp4Glob
      if files.isEmpty then
        ({ s with video_paths := [] },
         [Effect.download url, Effect.error "No .mp4 files were downloaded."])
      else
        ({ s with video_paths := files, current_input := some url },
         [Effect.download url,
          Effect.success ("Downloaded " ++ toString files.length ++ " video(s)")])
  else (s, ([] : List Effect))

/-- The full playlist branch: `playlistCore` followed by the per-path
display loop, which shows only the paths whose files exist
(src/video.py:170-172). -/
def playlistBranch (s : SessionState) (url : String) (fs : FS)
    (dl : Except String (List String)) : SessionState × List Effect :=
  if url = "" then (s, []) else
  let se := playlistCore s url dl
  (se.1, se.2 ++ (se.1.video_paths.filter fs.existsF).map Effect.showVideo)

/-- The "Provide direct video URL (.mp4)" branch (src/video.py:174-210).
`vfile` is `str(Path(temp_dir) / "direct_video.mp4")`; `dl` is the outcome
of the `requests.get` / chunked write under the broad `except`. -/
def directBranch (s : SessionState) (url vfile : String) (fs : FS)
    (dl : Except String FS) : SessionState × List Effect :=
  if url = "" then (s, []) else
  let needDownload :=
    decide (s.current_input ≠ some url) || s.video_paths.isEmpty ||
      !fs.existsF (s.video_paths.headD "")
  let (s', effs, fs') :=
    if needDownload then
      match dl with
      | .error e =>
        ({ s with video_paths := [] },
         [Effect.download url, Effect.error ("Download failed: " ++ e)], fs)
      | .ok fsNew =>
        if fsNew.existsF vfile && decide (10000 < fsNew.sizeF vfile) then
          ({ s with video_paths := [vfile], current_input := some url },
           [Effect.download url, Effect.success "Video downloaded!"], fsNew)
        else
          ({ s with video_paths := [] },
           [Effect.download url, Effect.error "Downloaded file is invalid or empty."],
           fsNew)
    else (s, [], fs)
  if !s'.video_paths.isEmpty && fs'.existsF (s'.video_paths.headD "") then
    (s', effs ++ [Effect.showVideo (s'.video_paths.headD "")])
  else (s', effs)

/-- A remote upload handle: its name and the stream of statuses observed by
successive polls (`statusAt 0` right after `upload_file(path)`,
`statusAt (k+1)` from the k-th `get_file`). -/
structure Handle where
  name : String
  statusAt : Nat → String

/-- The poll loop `while uploaded.state.name == "PROCESSING": sleep(1);
uploaded = get_file(...)` (src/video.py:236-238), with fuel.  Returns the
index of the first status from `k` on that is not "PROCESSING", or `none`
if the loop does not exit within the fuel. -/
def pollIdx (h : Handle) : Nat → Nat → Option Nat
  | 0, _ => none
  | fuel + 1, k =>
    if h.statusAt k = "PROCESSING" then pollIdx h fuel (k + 1) else some k

/-- The per-path loop body of the analysis section (src/video.py:230-239):
skip (with a warning) paths whose file no longer exists; otherwise upload,
poll until not "PROCESSING", and append to `processed_videos`.  Each
processed entry records the path and the poll index at which its status
stopped being "PROCESSING".  `none` models a poll loop that never exits. -/
def processVideos (fs : FS) (svc : String → Handle) (fuel : Nat) :
    List String → Option (List (String × Nat) × List Effect)
  | [] => some ([], [])
  | p :: rest =>
    if fs.existsF p then
      match pollIdx (svc p) fuel 0 with
      | none => none
      | some k =>
        match processVideos fs svc fuel rest with
        | none => none
        | some (pr, effs) =>
          some ((p, k) :: pr,
            (Effect.upload p :: List.replicate k Effect.pollSleep) ++ effs)
    else
      match processVideos fs svc fuel rest with
      | none => none
      | some (pr, effs) =>
        some (pr, Effect.warning ("Video file no longer exists: " ++ p) :: effs)

/-- The effect block contributed by one path of the analysis loop. -/
def videoBlock (fs : FS) (svc : String → Handle) (fuel : Nat) (p : String) :
    List Effect :=
  if fs.existsF p then
    match pollIdx (svc p) fuel 0 with
    | some k => Effect.upload p :: List.replicate k Effect.pollSleep
    | none => [Effect.upload p]
  else [Effect.warning ("Video file no longer exists: " ++ p)]

/-- The "Analyze Video(s)" button handler (src/video.py:222-257).
`agentRun` is the outcome of `multimodal_Agent.run` under the broad
`except` (its `.content` on success, the exception's message on failure). -/
def analyzeButton (s : SessionState) (query : String) (fs : FS)
    (svc : String → Handle) (fuel : Nat) (agentRun : Except String String) :
    Option (SessionState × List Effect) :=
  if strippedEmpty query then
    some (s, [Effect.warning "Please enter a question or insight to analyze."])
  else if s.video_paths.isEmpty then
    some (s, [Effect.warning "No video(s) loaded yet. Please provide a video first."])
  else
    match processVideos fs svc fuel s.video_paths with
    | none => none
    | some (pr, effs) =>
      if pr.isEmpty then
        some (s, effs ++ [Effect.error "No valid videos could be uploaded for analysis."])
      else
        match agentRun with
        | .ok content =>
          some (s, effs ++ [Effect.modelCall query (pr.map Prod.fst),
                            Effect.renderResult content])
        | .error e =>
          some (s, effs ++ [Effect.modelCall query (pr.map Prod.fst),
                            Effect.error ("An error occurred during analysis: " ++ e)])

/-- The "Clear current video(s) and start over" button (src/video.py:260-264). -/
def clearButton (s : SessionState) : SessionState :=
  { s with video_paths := [], current_input := none, last_uploaded_name := none }

/-! ## Helper lemmas -/

/-- If the poll loop exits with index `j` (starting from `k`), then the
status at `j` is not "PROCESSING" and every status strictly before `j`
(from `k` on) was "PROCESSING". -/
lemma pollIdx_spec (h : Handle) :
    ∀ fuel k j, pollIdx h fuel k = some j →
      k ≤ j ∧ h.statusAt j ≠ "PROCESSING" ∧
        ∀ i, k ≤ i → i < j → h.statusAt i = "PROCESSING" := by
  intro fuel
  induction fuel with
  | zero => intro k j hp; simp [pollIdx] at hp
  | succ fuel ih =>
    intro k j hp
    by_cases hs : h.statusAt k = "PROCESSING"
    · rw [pollIdx, if_pos hs] at hp
      obtain ⟨h1, h2, h3⟩ := ih (k + 1) j hp
      refine ⟨Nat.le_trans (Nat.le_succ k) h1, h2, ?_⟩
      intro i hki hij
      rcases Nat.eq_or_lt_of_le hki with heq | hlt
      · exact heq ▸ hs
      · exact h3 i hlt hij
    · rw [pollIdx, if_neg hs] at hp
      obtain rfl := Option.some.inj hp
      exact ⟨Nat.le_refl _, hs, fun i hki hij => absurd (Nat.lt_of_le_of_lt hki hij) (Nat.lt_irrefl _)⟩

/-- If every needed poll loop terminates within the fuel, the analysis
loop succeeds, its trace is the in-order concatenation of the per-video
blocks, and the processed list is exactly the existing paths in order. -/
lemma processVideos_blocks (fs : FS) (svc : String → Handle) (fuel : Nat) :
    ∀ paths : List String,
      (∀ p ∈ paths, fs.existsF p = true → (pollIdx (svc p) fuel 0).isSome = true) →
      ∃ pr, processVideos fs svc fuel paths =
          some (pr, (paths.map (videoBlock fs svc fuel)).flatten) ∧
        pr.map Prod.fst = paths.filter fs.existsF ∧
        ∀ x ∈ pr, pollIdx (svc x.1) fuel 0 = some x.2 := by
  intro paths
  induction paths with
  | nil => intro _; exact ⟨[], by simp [processVideos], by simp, by simp⟩
  | cons p rest ih =>
    intro hterm
    obtain ⟨pr, hpv, hmap, hpoll⟩ :=
      ih (fun q hq hexq => hterm q (List.mem_cons_of_mem _ hq) hexq)
    by_cases hex : fs.existsF p = true
    · obtain ⟨k, hk⟩ :=
        Option.isSome_iff_exists.mp (hterm p (List.mem_cons_self _ _) hex)
      refine ⟨(p, k) :: pr, ?_, ?_, ?_⟩
      · simp [processVideos, hex, hk, hpv, videoBlock]
      · simp [hex, hmap]
      · intro x hx
        rcases List.mem_cons.mp hx with rfl | hx
        · exact hk
        · exact hpoll x hx
    · have hex' : fs.existsF p = false := Bool.not_eq_true _ ▸ eq_false_of_ne_true hex
      refine ⟨pr, ?_, ?_, hpoll⟩
      · simp [processVideos, hex', hpv, videoBlock]
      · simp [hex', hmap]

/-- Structural facts extracted from any successful run of the analysis
loop: the processed list is the existing paths in order, each processed
entry carries its poll exit index, every missing path leaves a warning in
the trace, every existing path is uploaded, and only existing paths are
uploaded. -/
lemma processVideos_some (fs : FS) (svc : String → Handle) (fuel : Nat) :
    ∀ (paths : List String) (pr : List (String × Nat)) (effs : List Effect),
      processVideos fs svc fuel paths = some (pr, effs) →
      pr.map Prod.fst = paths.filter fs.existsF ∧
      (∀ x ∈ pr, pollIdx (svc x.1) fuel 0 = some x.2) ∧
      (∀ p ∈ paths, fs.existsF p = false →
        Effect.warning ("Video file no longer exists: " ++ p) ∈ effs) ∧
      (∀ p ∈ paths, fs.existsF p = true → Effect.upload p ∈ effs) ∧
      (∀ p, Effect.upload p ∈ effs → fs.existsF p = true) := by
  intro paths
  induction paths with
  | nil =>
    intro pr effs hpv
    simp [processVideos] at hpv
    obtain ⟨rfl, rfl⟩ := hpv
    simp
  | cons p rest ih =>
    intro pr effs hpv
    by_cases hex : fs.existsF p = true
    · rw [processVideos, if_pos hex] at hpv
      cases hpoll : pollIdx (svc p) fuel 0 with
      | none => rw [hpoll] at hpv; simp at hpv
      | some k =>
        rw [hpoll] at hpv
        cases hrest : processVideos fs svc fuel rest with
        | none => rw [hrest] at hpv; simp at hpv
        | some pe =>
          obtain ⟨pr', effs'⟩ := pe
          rw [hrest] at hpv
          simp only [Option.some.injEq, Prod.mk.injEq] at hpv
          obtain ⟨rfl, rfl⟩ := hpv
          obtain ⟨ih1, ih2, ih3, ih4, ih5⟩ := ih pr' effs' hrest
          refine ⟨by simp [hex, ih1], ?_, ?_, ?_, ?_⟩
          · intro x hx
            rcases List.mem_cons.mp hx with rfl | hx
            · exact hpoll
            · exact ih2 x hx
          · intro q hq hqf
            rcases List.mem_cons.mp hq with rfl | hq
            · rw [hex] at hqf; cases hqf
            · exact List.mem_append_right _ (ih3 q hq hqf)
          · intro q hq hqt
            rcases List.mem_cons.mp hq with rfl | hq
            · exact List.mem_append_left _ (List.mem_cons_self _ _)
            · exact List.mem_append_right _ (ih4 q hq hqt)
          · intro q hq
            rcases List.mem_append.mp hq with hq | hq
            · rcases List.mem_cons.mp hq with heq | hq
              · obtain rfl : q = p := by simpa using heq
                exact hex
              · exact absurd (List.eq_of_mem_replicate hq) (by simp)
            · exact ih5 q hq
    · have hex' : fs.existsF p = false := Bool.not_eq_true _ ▸ eq_false_of_ne_true hex
      rw [processVideos, if_neg (by simp [hex'])] at hpv
      cases hrest : processVideos fs svc fuel rest with
      | none => rw [hrest] at hpv; simp at hpv
      | some pe =>
        obtain ⟨pr', effs'⟩ := pe
        rw [hrest] at hpv
        simp only [Option.some.injEq, Prod.mk.injEq] at hpv
        obtain ⟨rfl, rfl⟩ := hpv
        obtain ⟨ih1, ih2, ih3, ih4, ih5⟩ := ih pr' effs' hrest
        refine ⟨by simp [hex', ih1], ih2, ?_, ?_, ?_⟩
        · intro q hq hqf
          rcases List.mem_cons.mp hq with rfl | hq
          · exact List.mem_cons_self _ _
          · exact List.mem_cons_of_mem _ (ih3 q hq hqf)
        · intro q hq hqt
          rcases List.mem_cons.mp hq with rfl | hq
          · rw [hex'] at hqt; cases hqt
          · exact List.mem_cons_of_mem _ (ih4 q hq hqt)
        · intro q hq
          rcases List.mem_cons.mp hq with heq | hq
          · cases heq
          · exact ih5 q hq

/-- Closed form of the YouTube branch when the guard forces a download
(`current_input` differs from the URL) and the download call returns
normally: the size/existence validation decides between acceptance (with
display) and rejection. -/
lemma youtubeBranch_ok (s : SessionState) (url vfile : String) (fs fsNew : FS)
    (hurl : url ≠ "") (hnew : s.current_input ≠ some url) :
    youtubeBranch s url vfile fs (.ok fsNew) =
      if fsNew.existsF vfile && decide (10000 < fsNew.sizeF vfile) then
        ({ s with video_paths := [vfile], current_input := some url },
         [Effect.download url, Effect.success "Video downloaded!",
          Effect.showVideo vfile])
      else
        ({ s with video_paths := [] },
         [Effect.download url, Effect.error "Downloaded file is invalid or empty."]) := by
  by_cases hex : fsNew.existsF vfile = true
  · by_cases hsz : 10000 < fsNew.sizeF vfile
    · simp [youtubeBranch, hurl, hnew, hex, hsz]
    · simp [youtubeBranch, hurl, hnew, hex, hsz]
  · have hex' : fsNew.existsF vfile = false := by simpa using hex
    simp [youtubeBranch, hurl, hnew, hex']

/-- Closed form of the direct-URL branch when the guard forces a download
and the download call returns normally. -/
lemma directBranch_ok (s : SessionState) (url vfile : String) (fs fsNew : FS)
    (hurl : url ≠ "") (hnew : s.current_input ≠ some url) :
    directBranch s url vfile fs (.ok fsNew) =
      if fsNew.existsF vfile && decide (10000 < fsNew.sizeF vfile) then
        ({ s with video_paths := [vfile], current_input := some url },
         [Effect.download url, Effect.success "Video downloaded!",
          Effect.showVideo vfile])
      else
        ({ s with video_paths := [] },
         [Effect.download url, Effect.error "Downloaded file is invalid or empty."]) := by
  by_cases hex : fsNew.existsF vfile = true
  · by_cases hsz : 10000 < fsNew.sizeF vfile
    · simp [directBranch, hurl, hnew, hex, hsz]
    · simp [directBranch, hurl, hnew, hex, hsz]
  · have hex' : fsNew.existsF vfile = false := by simpa using hex
    simp [directBranch, hurl, hnew, hex']

/-- The download/store part of the playlist branch emits no `showVideo`
effect: all displaying happens in the guarded display loop. -/
lemma playlistCore_no_showVideo (s : SessionState) (url : String)
    (dl : Except String (List String)) (p : String) :
    Effect.showVideo p ∉ (playlistCore s url dl).2 := by
  intro hp
  unfold playlistCore at hp
  by_cases hg : (decide (s.current_input ≠ some url) || s.video_paths.isEmpty) = true
  · rw [if_pos hg] at hp
    cases dl with
    | error e => simp at hp
    | ok listing =>
      by_cases hf : (listing.filter matchesMp4Glob).isEmpty = true
      · simp [hf] at hp
      · simp [hf] at hp
  · rw [if_neg hg] at hp
    simp at hp

/-- Every poll index recorded by a successful analysis run is a genuine
poll-loop exit, so every existing path's poll loop terminated: the trace
of a successful run is always the in-order concatenation of per-video
blocks. -/
lemma processVideos_effs (fs : FS) (svc : String → Handle) (fuel : Nat)
    (paths : List String) (pr : List (String × Nat)) (effs : List Effect)
    (hpv : processVideos fs svc fuel paths = some (pr, effs)) :
    effs = (paths.map (videoBlock fs svc fuel)).flatten := by
  obtain ⟨h1, h2, -, -, -⟩ := processVideos_some fs svc fuel paths pr effs hpv
  have hterm : ∀ p ∈ paths, fs.existsF p = true → (pollIdx (svc p) fuel 0).isSome = true := by
    intro p hp hex
    have hmem : p ∈ pr.map Prod.fst := by
      rw [h1]; exact List.mem_filter.mpr ⟨hp, hex⟩
    obtain ⟨x, hx, hfst⟩ := List.mem_map.mp hmem
    rw [← hfst, h2 x hx]
    rfl
  obtain ⟨pr', hpv', -, -⟩ := processVideos_blocks fs svc fuel paths hterm
  rw [hpv] at hpv'
  exact (Prod.mk.injEq _ _ _ _ ▸ Option.some.inj hpv').2

/-- A handle whose status never leaves "PROCESSING" makes the poll loop
spin forever: no amount of fuel makes it exit. -/
lemma pollIdx_always_processing (h : Handle)
    (hproc : ∀ i, h.statusAt i = "PROCESSING") :
    ∀ fuel k, pollIdx h fuel k = none := by
  intro fuel
  induction fuel with
  | zero => intro k; rfl
  | succ fuel ih => intro k; rw [pollIdx, if_pos (hproc k)]; exact ih (k + 1)

/-- Concrete filesystem in which every path exists with size 20000. -/
def fsAll : FS := ⟨fun _ => true, fun _ => 20000⟩

/-- Concrete upload service whose handles report "PROCESSING" for the
first two polls and "DONE" afterwards. -/
def svcTwoPolls : String → Handle :=
  fun p => ⟨p, fun i => if i < 2 then "PROCESSING" else "DONE"⟩

/-- Concrete filesystem in which only the path "a" exists. -/
def fsOnlyA : FS := ⟨fun p => p == "a", fun _ => 20000⟩

/-! ## Claims -/

/-- C1: in every download branch (YouTube link, playlist, direct URL), if
the wrapped external call raises (`dl = .error e`), the branch emits a
user-facing error message and sets `video_paths` to `[]`; in the analysis
step, if the wrapped agent call raises, an error message is emitted.  No
exception escapes: all branch functions are total.  The download branches
are taken with the guard forced by a fresh URL
(`s.current_input ≠ some url`). -/
theorem c1_exceptions_surfaced
    (s : SessionState) (url vfile e query : String) (fs : FS)
    (svc : String → Handle) (fuel : Nat)
    (pr : List (String × Nat)) (effs : List Effect)
    (hurl : url ≠ "") (hnew : s.current_input ≠ some url)
    (hq : strippedEmpty query = false) (hvp : s.video_paths ≠ [])
    (hpv : processVideos fs svc fuel s.video_paths = some (pr, effs))
    (hpr : pr ≠ []) :
    ((youtubeBranch s url vfile fs (.error e)).1.video_paths = [] ∧
      Effect.error ("Download failed: " ++ e) ∈ (youtubeBranch s url vfile fs (.error e)).2) ∧
    ((playlistBranch s url fs (.error e)).1.video_paths = [] ∧
      Effect.error ("Playlist download failed: " ++ e) ∈ (playlistBranch s url fs (.error e)).2) ∧
    ((directBranch s url vfile fs (.error e)).1.video_paths = [] ∧
      Effect.error ("Download failed: " ++ e) ∈ (directBranch s url vfile fs (.error e)).2) ∧
    analyzeButton s query fs svc fuel (.error e) =
      some (s, effs ++ [Effect.modelCall query (pr.map Prod.fst),
                        Effect.error ("An error occurred during analysis: " ++ e)]) := by
  have hvpE : s.video_paths.isEmpty = false := by
    cases hsv : s.video_paths with
    | nil => exact absurd hsv hvp
    | cons a l => rfl
  have hprE : pr.isEmpty = false := by
    cases hsp : pr with
    | nil => exact absurd hsp hpr
    | cons a l => rfl
  refine ⟨?_, ?_, ?_, ?_⟩
  · simp [youtubeBranch, hurl, hnew]
  · simp [playlistBranch, playlistCore, hurl, hnew]
  · simp [directBranch, hurl, hnew]
  · simp [analyzeButton, hq, hvpE, hpv, hprE]

/-- Witness for C1 at concrete inputs. -/
theorem c1_witness :
    ((youtubeBranch ⟨["p"], none, none⟩ "u" "v" fsAll (.error "boom")).1.video_paths = [] ∧
      Effect.error ("Download failed: " ++ "boom") ∈
        (youtubeBranch ⟨["p"], none, none⟩ "u" "v" fsAll (.error "boom")).2) ∧
    ((playlistBranch ⟨["p"], none, none⟩ "u" fsAll (.error "boom")).1.video_paths = [] ∧
      Effect.error ("Playlist download failed: " ++ "boom") ∈
        (playlistBranch ⟨["p"], none, none⟩ "u" fsAll (.error "boom")).2) ∧
    ((directBranch ⟨["p"], none, none⟩ "u" "v" fsAll (.error "boom")).1.video_paths = [] ∧
      Effect.error ("Download failed: " ++ "boom") ∈
        (directBranch ⟨["p"], none, none⟩ "u" "v" fsAll (.error "boom")).2) ∧
    analyzeButton ⟨["p"], none, none⟩ "q" fsAll svcTwoPolls 5 (.error "boom") =
      some (⟨["p"], none, none⟩,
        [Effect.upload "p", Effect.pollSleep, Effect.pollSleep] ++
          [Effect.modelCall "q" ([(("p" : String), 2)].map Prod.fst),
           Effect.error ("An error occurred during analysis: " ++ "boom")]) :=
  c1_exceptions_surfaced ⟨["p"], none, none⟩ "u" "v" "boom" "q" fsAll svcTwoPolls 5
    [("p", 2)] [Effect.upload "p", Effect.pollSleep, Effect.pollSleep]
    (by decide) (by decide) (by decide) (by decide) (by decide) (by decide)

/-- C2: when the cached `current_input` equals the URL, `video_paths` is
non-empty, and its first file exists, re-running any of the three download
branches performs no download and leaves the whole session state (in
particular `video_paths` and `current_input`) unchanged. -/
theorem c2_rerun_noop
    (s : SessionState) (url vfile : String) (fs : FS)
    (dlY dlD : Except String FS) (dlP : Except String (List String))
    (hcur : s.current_input = some url)
    (hvp : s.video_paths ≠ [])
    (hex : fs.existsF (s.video_paths.headD "") = true) :
    (youtubeBranch s url vfile fs dlY).1 = s ∧
    (∀ u, Effect.download u ∉ (youtubeBranch s url vfile fs dlY).2) ∧
    (playlistBranch s url fs dlP).1 = s ∧
    (∀ u, Effect.download u ∉ (playlistBranch s url fs dlP).2) ∧
    (directBranch s url vfile fs dlD).1 = s ∧
    (∀ u, Effect.download u ∉ (directBranch s url vfile fs dlD).2) := by
  have hvpE : s.video_paths.isEmpty = false := by
    cases hsv : s.video_paths with
    | nil => exact absurd hsv hvp
    | cons a l => rfl
  have hexD : fs.existsF (s.video_paths.head?.getD "") = true := by
    cases hsv : s.video_paths with
    | nil => exact absurd hsv hvp
    | cons a l => simpa [hsv] using hex
  by_cases hu : url = ""
  · simp [youtubeBranch, playlistBranch, directBranch, hu]
  · refine ⟨?_, ?_, ?_, ?_, ?_, ?_⟩
    · simp [youtubeBranch, hu, hcur, hvpE, hex, hexD]
    · simp [youtubeBranch, hu, hcur, hvpE, hex, hexD]
    · simp [playlistBranch, playlistCore, hu, hcur, hvpE]
    · simp [playlistBranch, playlistCore, hu, hcur, hvpE]
    · simp [directBranch, hu, hcur, hvpE, hex, hexD]
    · simp [directBranch, hu, hcur, hvpE, hex, hexD]

/-- Witness for C2 at concrete inputs. -/
theorem c2_witness :
    (youtubeBranch ⟨["p"], some "u", none⟩ "u" "v" fsAll (.error "boom")).1 =
        ⟨["p"], some "u", none⟩ ∧
    (∀ u, Effect.download u ∉
        (youtubeBranch ⟨["p"], some "u", none⟩ "u" "v" fsAll (.error "boom")).2) ∧
    (playlistBranch ⟨["p"], some "u", none⟩ "u" fsAll (.error "boom")).1 =
        ⟨["p"], some "u", none⟩ ∧
    (∀ u, Effect.download u ∉
        (playlistBranch ⟨["p"], some "u", none⟩ "u" fsAll (.error "boom")).2) ∧
    (directBranch ⟨["p"], some "u", none⟩ "u" "v" fsAll (.error "boom")).1 =
        ⟨["p"], some "u", none⟩ ∧
    (∀ u, Effect.download u ∉
        (directBranch ⟨["p"], some "u", none⟩ "u" "v" fsAll (.error "boom")).2) :=
  c2_rerun_noop ⟨["p"], some "u", none⟩ "u" "v" fsAll (.error "boom") (.error "boom")
    (.error "boom") (by decide) (by decide) (by decide)

/-- C3: every entry of `processed_videos` records a poll index at which
the handle's status is no longer "PROCESSING", and at every earlier poll
the status was "PROCESSING": a handle is appended (and hence later passed
to the model) only after its status has left "PROCESSING", and the loop
polled it at every step until then. -/
theorem c3_poll_gates_processed
    (fs : FS) (svc : String → Handle) (fuel : Nat)
    (paths : List String) (pr : List (String × Nat)) (effs : List Effect)
    (hpv : processVideos fs svc fuel paths = some (pr, effs)) :
    ∀ x ∈ pr, (svc x.1).statusAt x.2 ≠ "PROCESSING" ∧
      ∀ i, i < x.2 → (svc x.1).statusAt i = "PROCESSING" := by
  intro x hx
  obtain ⟨-, h2, -, -, -⟩ := processVideos_some fs svc fuel paths pr effs hpv
  obtain ⟨-, hns, hall⟩ := pollIdx_spec (svc x.1) fuel 0 x.2 (h2 x hx)
  exact ⟨hns, fun i hi => hall i (Nat.zero_le _) hi⟩

/-- Witness for C3 at concrete inputs. -/
theorem c3_witness :
    (svcTwoPolls "a").statusAt 2 ≠ "PROCESSING" ∧
    (svcTwoPolls "a").statusAt 1 = "PROCESSING" := by
  have h := c3_poll_gates_processed fsAll svcTwoPolls 5 ["a"] [("a", 2)]
    [Effect.upload "a", Effect.pollSleep, Effect.pollSleep] (by decide)
    ("a", 2) (by decide)
  exact ⟨h.1, h.2 1 (by decide)⟩

/-- C4: a successful analysis run is strictly sequential and in list
order: its trace is the in-order concatenation of per-video blocks (each
block is that video's upload followed by its polls, so the upload-and-poll
of video i+1 begins only after video i's poll loop completed), and
`processed_videos` preserves the order of `video_paths`. -/
theorem c4_sequential_in_order
    (fs : FS) (svc : String → Handle) (fuel : Nat)
    (paths : List String) (pr : List (String × Nat)) (effs : List Effect)
    (hpv : processVideos fs svc fuel paths = some (pr, effs)) :
    effs = (paths.map (videoBlock fs svc fuel)).flatten ∧
    pr.map Prod.fst = paths.filter fs.existsF :=
  ⟨processVideos_effs fs svc fuel paths pr effs hpv,
   (processVideos_some fs svc fuel paths pr effs hpv).1⟩

/-- Witness for C4 at concrete inputs. -/
theorem c4_witness :
    [Effect.upload "a", Effect.pollSleep, Effect.pollSleep,
     Effect.upload "b", Effect.pollSleep, Effect.pollSleep] =
      ((["a", "b"].map (videoBlock fsAll svcTwoPolls 5)).flatten) ∧
    [(("a" : String), 2), ("b", 2)].map Prod.fst = ["a", "b"].filter fsAll.existsF :=
  c4_sequential_in_order fsAll svcTwoPolls 5 ["a", "b"] [("a", 2), ("b", 2)]
    [Effect.upload "a", Effect.pollSleep, Effect.pollSleep,
     Effect.upload "b", Effect.pollSleep, Effect.pollSleep] (by decide)

/-- Concrete filesystem in which no path exists. -/
def fsNone : FS := ⟨fun _ => false, fun _ => 0⟩

/-- The playlist branch displays a path only after its per-path existence
check succeeded. -/
lemma playlistBranch_showVideo (s : SessionState) (url : String) (fs : FS)
    (dl : Except String (List String)) (p : String)
    (hp : Effect.showVideo p ∈ (playlistBranch s url fs dl).2) :
    fs.existsF p = true := by
  by_cases hu : url = ""
  · simp [playlistBranch, hu] at hp
  · simp only [playlistBranch, if_neg hu] at hp
    rcases List.mem_append.mp hp with hp | hp
    · exact absurd hp (playlistCore_no_showVideo s url dl p)
    · obtain ⟨x, hx, hxp⟩ := List.mem_map.mp hp
      obtain rfl : x = p := Effect.showVideo.inj hxp
      exact (List.mem_filter.mp hx).2

/-- C5 counterexample: the claim says every operation consuming
`video_paths` checks file existence before use, but the upload-branch
display shows the first listed path whenever the list is non-empty — it
performs no existence check at all (it does not even consult a
filesystem), and here the displayed path exists in no filesystem. -/
theorem c5_counterexample :
    Effect.showVideo "ghost" ∈
      (uploadBranch ⟨["ghost"], none, some "clip.mp4"⟩ (some "clip.mp4") "tmpfile").2 ∧
    "ghost" ∈ (⟨["ghost"], none, some "clip.mp4"⟩ : SessionState).video_paths ∧
    fsNone.existsF "ghost" = false := by decide

/-- C5 (amended): the YouTube and direct-URL branches accept a path into
`video_paths` only after checking it exists (with size above the
threshold) in the post-download filesystem, and their displays as well as
the playlist display and the analysis upload loop check existence before
using a path; the upload-branch display, however, checks only that
`video_paths` is non-empty. -/
theorem c5_amended_checks
    (s : SessionState) (url vfile : String) (fs fsNew : FS)
    (dlP : Except String (List String))
    (svc : String → Handle) (fuel : Nat) (paths : List String)
    (pr : List (String × Nat)) (effs : List Effect)
    (hurl : url ≠ "") (hnew : s.current_input ≠ some url)
    (hpv : processVideos fs svc fuel paths = some (pr, effs)) :
    ((youtubeBranch s url vfile fs (.ok fsNew)).1.video_paths ≠ [] →
      (youtubeBranch s url vfile fs (.ok fsNew)).1.video_paths = [vfile] ∧
        fsNew.existsF vfile = true) ∧
    (∀ p, Effect.showVideo p ∈ (youtubeBranch s url vfile fs (.ok fsNew)).2 →
      fsNew.existsF p = true) ∧
    ((directBranch s url vfile fs (.ok fsNew)).1.video_paths ≠ [] →
      (directBranch s url vfile fs (.ok fsNew)).1.video_paths = [vfile] ∧
        fsNew.existsF vfile = true) ∧
    (∀ p, Effect.showVideo p ∈ (directBranch s url vfile fs (.ok fsNew)).2 →
      fsNew.existsF p = true) ∧
    (∀ p, Effect.showVideo p ∈ (playlistBranch s url fs dlP).2 →
      fs.existsF p = true) ∧
    (∀ p, Effect.upload p ∈ effs → fs.existsF p = true) := by
  have hyt := youtubeBranch_ok s url vfile fs fsNew hurl hnew
  have hdr := directBranch_ok s url vfile fs fsNew hurl hnew
  by_cases hacc : (fsNew.existsF vfile && decide (10000 < fsNew.sizeF vfile)) = true
  · obtain ⟨hex, hsz⟩ : fsNew.existsF vfile = true ∧ 10000 < fsNew.sizeF vfile := by
      simpa using hacc
    rw [hyt, hdr, if_pos hacc]
    refine ⟨fun _ => ⟨rfl, hex⟩, ?_, fun _ => ⟨rfl, hex⟩, ?_,
      fun p hp => playlistBranch_showVideo s url fs dlP p hp,
      fun p hp => (processVideos_some fs svc fuel paths pr effs hpv).2.2.2.2 p hp⟩
    · intro p hp
      simp at hp
      exact hp ▸ hex
    · intro p hp
      simp at hp
      exact hp ▸ hex
  · rw [hyt, hdr, if_neg hacc]
    refine ⟨fun hne => absurd rfl hne, ?_, fun hne => absurd rfl hne, ?_,
      fun p hp => playlistBranch_showVideo s url fs dlP p hp,
      fun p hp => (processVideos_some fs svc fuel paths pr effs hpv).2.2.2.2 p hp⟩
    · intro p hp
      simp at hp
    · intro p hp
      simp at hp

/-- Witness for the amended C5 at concrete inputs. -/
theorem c5_witness :
    (youtubeBranch ⟨[], none, none⟩ "u" "v" fsAll (.ok fsAll)).1.video_paths = ["v"] ∧
    fsAll.existsF "v" = true ∧
    fsAll.existsF "b.mp4" = true ∧
    fsAll.existsF "a" = true := by
  obtain ⟨h1, h2, h3, h4, h5, h6⟩ := c5_amended_checks ⟨[], none, none⟩ "u" "v"
    fsAll fsAll (.ok ["b.mp4"]) svcTwoPolls 5 ["a"] [("a", 2)]
    [Effect.upload "a", Effect.pollSleep, Effect.pollSleep]
    (by decide) (by decide) (by decide)
  obtain ⟨ha, hb⟩ := h1 (by decide)
  exact ⟨ha, hb, h5 "b.mp4" (by decide), h6 "a" (by decide)⟩

/-- C6 counterexample: the claim says no download call imposes a time
limit, but the direct-URL branch's HTTP GET passes `timeout=45`
(src/video.py:190). -/
theorem c6_counterexample :
    (directRequest "https://example.com/video.mp4").timeout = some 45 ∧
    (directRequest "https://example.com/video.mp4").timeout ≠ none := by decide

/-- C6 (amended): the direct-URL HTTP GET does pass a 45-second timeout;
apart from it there is no cancellation or timeout — the poll loop is
unbounded (against an always-"PROCESSING" handle it never exits, whatever
the fuel) — and videos are never processed concurrently: the analysis
trace is the strictly sequential concatenation of per-video blocks. -/
theorem c6_amended_timeouts
    (url : String) (h : Handle)
    (fs : FS) (svc : String → Handle) (fuel : Nat)
    (paths : List String) (pr : List (String × Nat)) (effs : List Effect)
    (hproc : ∀ i, h.statusAt i = "PROCESSING")
    (hpv : processVideos fs svc fuel paths = some (pr, effs)) :
    (directRequest url).timeout = some 45 ∧
    (∀ f k, pollIdx h f k = none) ∧
    effs = (paths.map (videoBlock fs svc fuel)).flatten :=
  ⟨rfl, pollIdx_always_processing h hproc,
   processVideos_effs fs svc fuel paths pr effs hpv⟩

/-- Witness for the amended C6 at concrete inputs. -/
theorem c6_witness :
    (directRequest "https://example.com/video.mp4").timeout = some 45 ∧
    pollIdx ⟨"x", fun _ => "PROCESSING"⟩ 3 0 = none ∧
    [Effect.upload "a", Effect.pollSleep, Effect.pollSleep] =
      ((["a"].map (videoBlock fsAll svcTwoPolls 5)).flatten) := by
  obtain ⟨h1, h2, h3⟩ := c6_amended_timeouts "https://example.com/video.mp4"
    ⟨"x", fun _ => "PROCESSING"⟩ fsAll svcTwoPolls 5 ["a"] [("a", 2)]
    [Effect.upload "a", Effect.pollSleep, Effect.pollSleep]
    (fun _ => rfl) (by decide)
  exact ⟨h1, h2 3 0, h3⟩

/-- C7: in a successful analysis run, a path whose file no longer exists
is skipped with a warning and does not block the rest: the processed list
is exactly the existing paths in order, and every existing path is still
uploaded (hence included in the analysis, whose model call receives the
whole processed list). -/
theorem c7_missing_skipped
    (fs : FS) (svc : String → Handle) (fuel : Nat)
    (paths : List String) (pr : List (String × Nat)) (effs : List Effect)
    (hpv : processVideos fs svc fuel paths = some (pr, effs)) :
    pr.map Prod.fst = paths.filter fs.existsF ∧
    (∀ p ∈ paths, fs.existsF p = false →
      Effect.warning ("Video file no longer exists: " ++ p) ∈ effs) ∧
    (∀ p ∈ paths, fs.existsF p = true → Effect.upload p ∈ effs) := by
  obtain ⟨h1, -, h3, h4, -⟩ := processVideos_some fs svc fuel paths pr effs hpv
  exact ⟨h1, h3, h4⟩

/-- Witness for C7 at concrete inputs. -/
theorem c7_witness :
    [(("a" : String), 2)].map Prod.fst = ["gone", "a"].filter fsOnlyA.existsF ∧
    Effect.warning ("Video file no longer exists: " ++ "gone") ∈
      [Effect.warning ("Video file no longer exists: " ++ "gone"),
       Effect.upload "a", Effect.pollSleep, Effect.pollSleep] ∧
    Effect.upload "a" ∈
      [Effect.warning ("Video file no longer exists: " ++ "gone"),
       Effect.upload "a", Effect.pollSleep, Effect.pollSleep] := by
  obtain ⟨h1, h2, h3⟩ := c7_missing_skipped fsOnlyA svcTwoPolls 5 ["gone", "a"]
    [("a", 2)]
    [Effect.warning ("Video file no longer exists: " ++ "gone"),
     Effect.upload "a", Effect.pollSleep, Effect.pollSleep] (by decide)
  exact ⟨h1, h2 "gone" (by decide) (by decide), h3 "a" (by decide) (by decide)⟩

/-- C8: both download modes pass `ydl_opts` whose format is "mp4" and
whose post-processor list forces conversion through the FFmpeg convertor
to mp4, and the playlist branch stores into `video_paths` exactly the
files of the download directory matching the `*.mp4` glob. -/
theorem c8_mp4_conversion
    (outPath outTemplate : String) (s : SessionState) (url : String)
    (fs : FS) (listing : List String)
    (hurl : url ≠ "") (hnew : s.current_input ≠ some url)
    (hne : listing.filter matchesMp4Glob ≠ []) :
    (singleYdlOpts outPath).format = "mp4" ∧
    (singleYdlOpts outPath).postprocessors =
      [{ key := "FFmpegVideoConvertor", preferedformat := "mp4" }] ∧
    (playlistYdlOpts outTemplate).format = "mp4" ∧
    (playlistYdlOpts outTemplate).postprocessors =
      [{ key := "FFmpegVideoConvertor", preferedformat := "mp4" }] ∧
    (playlistBranch s url fs (.ok listing)).1.video_paths =
      listing.filter matchesMp4Glob := by
  have hneE : (listing.filter matchesMp4Glob).isEmpty = false := by
    cases hl : listing.filter matchesMp4Glob with
    | nil => exact absurd hl hne
    | cons a l => rfl
  refine ⟨rfl, rfl, rfl, rfl, ?_⟩
  simp [playlistBranch, playlistCore, hurl, hnew, hneE]

/-- Witness for C8 at concrete inputs. -/
theorem c8_witness :
    (singleYdlOpts "/tmp/youtube_video.mp4").format = "mp4" ∧
    (singleYdlOpts "/tmp/youtube_video.mp4").postprocessors =
      [{ key := "FFmpegVideoConvertor", preferedformat := "mp4" }] ∧
    (playlistYdlOpts "/tmp/%(title)s.%(ext)s").format = "mp4" ∧
    (playlistYdlOpts "/tmp/%(title)s.%(ext)s").postprocessors =
      [{ key := "FFmpegVideoConvertor", preferedformat := "mp4" }] ∧
    (playlistBranch ⟨[], none, none⟩ "u" fsAll
        (.ok ["b.mp4", "a.txt", "c.mp4"])).1.video_paths =
      ["b.mp4", "a.txt", "c.mp4"].filter matchesMp4Glob :=
  c8_mp4_conversion "/tmp/youtube_video.mp4" "/tmp/%(title)s.%(ext)s"
    ⟨[], none, none⟩ "u" fsAll ["b.mp4", "a.txt", "c.mp4"]
    (by decide) (by decide) (by decide)

/-- C9: in the YouTube-link and direct-URL branches (download forced by a
fresh URL, download call returning normally), a file is accepted into
`video_paths` exactly when it exists and its size exceeds 10000 bytes;
otherwise an error is shown and `video_paths` is emptied, so at acceptance
time `video_paths` never holds a file of size 10000 or less. -/
theorem c9_size_threshold
    (s : SessionState) (url vfile : String) (fs fsNew : FS)
    (hurl : url ≠ "") (hnew : s.current_input ≠ some url) :
    (fsNew.existsF vfile = true ∧ 10000 < fsNew.sizeF vfile →
      (youtubeBranch s url vfile fs (.ok fsNew)).1.video_paths = [vfile] ∧
      (directBranch s url vfile fs (.ok fsNew)).1.video_paths = [vfile]) ∧
    (¬(fsNew.existsF vfile = true ∧ 10000 < fsNew.sizeF vfile) →
      ((youtubeBranch s url vfile fs (.ok fsNew)).1.video_paths = [] ∧
        Effect.error "Downloaded file is invalid or empty." ∈
          (youtubeBranch s url vfile fs (.ok fsNew)).2) ∧
      ((directBranch s url vfile fs (.ok fsNew)).1.video_paths = [] ∧
        Effect.error "Downloaded file is invalid or empty." ∈
          (directBranch s url vfile fs (.ok fsNew)).2)) ∧
    (∀ p ∈ (youtubeBranch s url vfile fs (.ok fsNew)).1.video_paths,
      fsNew.existsF p = true ∧ 10000 < fsNew.sizeF p) ∧
    (∀ p ∈ (directBranch s url vfile fs (.ok fsNew)).1.video_paths,
      fsNew.existsF p = true ∧ 10000 < fsNew.sizeF p) := by
  have hyt := youtubeBranch_ok s url vfile fs fsNew hurl hnew
  have hdr := directBranch_ok s url vfile fs fsNew hurl hnew
  by_cases hacc : (fsNew.existsF vfile && decide (10000 < fsNew.sizeF vfile)) = true
  · obtain ⟨hex, hsz⟩ : fsNew.existsF vfile = true ∧ 10000 < fsNew.sizeF vfile := by
      simpa using hacc
    rw [hyt, hdr, if_pos hacc]
    refine ⟨fun _ => ⟨rfl, rfl⟩, fun hc => absurd ⟨hex, hsz⟩ hc, ?_, ?_⟩
    · intro p hp
      obtain rfl : p = vfile := by simpa using hp
      exact ⟨hex, hsz⟩
    · intro p hp
      obtain rfl : p = vfile := by simpa using hp
      exact ⟨hex, hsz⟩
  · have hacc' : ¬(fsNew.existsF vfile = true ∧ 10000 < fsNew.sizeF vfile) := by
      intro hc
      exact hacc (by simp [hc.1, hc.2])
    rw [hyt, hdr, if_neg hacc]
    refine ⟨fun hc => absurd hc hacc', fun _ => ⟨⟨rfl, by simp⟩, ⟨rfl, by simp⟩⟩, ?_, ?_⟩
    · intro p hp
      simp at hp
    · intro p hp
      simp at hp

/-- Witness for C9 at concrete inputs. -/
theorem c9_witness :
    (youtubeBranch ⟨[], none, none⟩ "u" "v" fsAll (.ok fsAll)).1.video_paths = ["v"] ∧
    (directBranch ⟨[], none, none⟩ "u" "v" fsAll (.ok fsAll)).1.video_paths = ["v"] :=
  (c9_size_threshold ⟨[], none, none⟩ "u" "v" fsAll fsAll (by decide) (by decide)).1
    ⟨by decide, by decide⟩

/-- C10: clicking Analyze with a blank query, or with a non-blank query
but an empty `video_paths`, yields exactly one warning and nothing else:
the state is returned unchanged and the trace holds no upload, poll,
or model-call effect. -/
theorem c10_precondition_guards
    (s : SessionState) (query : String) (fs : FS)
    (svc : String → Handle) (fuel : Nat) (agentRun : Except String String) :
    (strippedEmpty query = true →
      analyzeButton s query fs svc fuel agentRun =
        some (s, [Effect.warning "Please enter a question or insight to analyze."])) ∧
    (strippedEmpty query = false → s.video_paths = [] →
      analyzeButton s query fs svc fuel agentRun =
        some (s, [Effect.warning "No video(s) loaded yet. Please provide a video first."])) := by
  constructor
  · intro hq
    simp [analyzeButton, hq]
  · intro hq hvp
    simp [analyzeButton, hq, hvp]

/-- Witness for C10 at concrete inputs. -/
theorem c10_witness :
    analyzeButton ⟨["p"], none, none⟩ "   " fsAll svcTwoPolls 5 (.ok "out") =
      some (⟨["p"], none, none⟩,
        [Effect.warning "Please enter a question or insight to analyze."]) ∧
    analyzeButton ⟨[], none, none⟩ "q" fsAll svcTwoPolls 5 (.ok "out") =
      some (⟨[], none, none⟩,
        [Effect.warning "No video(s) loaded yet. Please provide a video first."]) :=
  ⟨(c10_precondition_guards ⟨["p"], none, none⟩ "   " fsAll svcTwoPolls 5 (.ok "out")).1
      (by decide),
   (c10_precondition_guards ⟨[], none, none⟩ "q" fsAll svcTwoPolls 5 (.ok "out")).2
      (by decide) rfl⟩
